import Mathlib

/-!
Shallow embedding of `heroku_env_vars.py`: a script that fetches environment
variables from the local process environment, a CircleCI project and a list of
Heroku applications, and merges them into one pandas DataFrame.

Modelling conventions:
* A pandas DataFrame is a list of column labels plus rows `(index label, cells)`;
  a cell is `Option String`, `none` standing for NaN/None.
* Python exceptions are modelled with `Except PyError`; `requests.RequestException`
  and its subclasses (`ConnectionError`, `HTTPError`, the `JSONDecodeError` raised
  by `Response.json()` in requests >= 2.27) are the errors with
  `isRequestException = true`.
* The outside world (process environment and the two HTTP endpoints) is a
  `World` record; each fetcher reads its response from it.
* `print` and `logging.warning`/`logging.info` calls are pure display output and
  are not modelled; the `logging.error` diagnostics of `get_heroku_env_vars` are
  modelled as a `List LogMsg` result so error reporting is observable.
-/

/-- A pandas cell: `some v` is a present value, `none` is NaN/None. -/
abbrev Cell := Option String

/-- A pandas DataFrame: ordered column labels and ordered rows, each row an
index label together with one cell per column. -/
structure DataFrame where
  cols : List String
  rows : List (String × List Cell)
  deriving Repr, DecidableEq

/-- The index labels of a DataFrame, in row order. -/
def DataFrame.keys (df : DataFrame) : List String := df.rows.map Prod.fst

/-- Python exceptions that the script can raise. -/
inductive PyError where
  | assertionError (msg : String)
  | keyError (key : String)
  | valueError (msg : String)
  | requestError
  | httpError (status : Nat)
  | jsonDecodeError
  | invalidIndexError
  deriving Repr, DecidableEq

/-- Whether the exception is a `requests.RequestException`: connection-level
errors, `HTTPError` from `raise_for_status`, and the `JSONDecodeError` that
`Response.json()` raises on an unparseable body (a `RequestException` subclass
since requests 2.27). -/
def PyError.isRequestException : PyError → Bool
  | .requestError => true
  | .httpError _ => true
  | .jsonDecodeError => true
  | _ => false

deriving instance DecidableEq for Except

/-- One observed HTTP interaction: either the request itself raised
(`requests.ConnectionError` and friends), or a response with a status code and
a body of type `β`. -/
inductive HttpResult (β : Type) where
  | netError
  | response (status : Nat) (body : β)
  deriving Repr, DecidableEq

/-- A parsed flat JSON object (Heroku config vars, or a Heroku error body).
`none` for the whole body means `Response.json()` raises `JSONDecodeError`. -/
abbrev ConfigVars := List (String × String)

/-- One record of the CircleCI `items` list, as parsed field/value pairs. -/
abbrev CIRecord := List (String × String)

/-- The outside world as the script observes it: the process environment, the
single CircleCI listing response, and one Heroku response per application name.
The CircleCI body is the parsed `items` list (`.get('items', [])` turns a
missing key into `[]`, so "no items key" is modelled as `some []`); `none`
means the body did not parse. -/
structure World where
  env : String → Option String
  circleci : HttpResult (Option (List CIRecord))
  heroku : String → HttpResult (Option ConfigVars)

/-- The `logging.error` diagnostics emitted by the fetchers. -/
inductive LogMsg where
  | authFailure (status : Nat) (id msg : String)
  | curlRemediation
  | otherFailure (status : Nat)
  | ciRequestError
  deriving Repr, DecidableEq

/-- The module constant `REQUIRED_ENV_VARS`, in its declared (not alphabetical)
order. -/
def REQUIRED_ENV_VARS : List String := [
  "AWS_ACCESS_KEY_ID",
  "AWS_DEFAULT_REGION",
  "AWS_SECRET_ACCESS_KEY",
  "API_HOST",
  "CLOUDCONVERT_API_KEY",
  "CURRENT_ENV",
  "FORCE_LOCAL_JOBS",
  "HEROKU_API_KEY",
  "JOB_DEFINITION_ARN",
  "JOB_QUEUE_NAME",
  "MONGODB_ATLAS_CLUSTERNAME",
  "MONGODB_DBNAME",
  "MONGODB_URI",
  "NODE_ENV",
  "NODE_OPTIONS",
  "PORT",
  "REDIS_URL",
  "S3_BUCKET_NAME",
  "SELENIUM_USERID",
  "SELENIUM_PASSWORD",
  "SENDGRID_PASSWORD",
  "SENDGRID_SURFACEOWL_API_KEY",
  "SENDGRID_USERNAME",
  "SURFACE_OWL_API_PREFIX",
  "SURFACE_OWL_API_VERSION",
  "SURFACE_OWL_PYTHON_PATH",
  "SQS_QUEUE_URL",
  "WEB_CONCURRENCY",
  "DAEMON_CONCURRENCY"]

/-- The module constant `HEROKU_APPS`. -/
def HEROKU_APPS : List String := ["urban-robot-dev", "urban-robot-staging", "urban-robot"]

/-- The assertion message of line 71 of the source. -/
def herokuKeyAssertMsg : String := "HEROKU_API_KEY environment variable is not set"

/-- Order-preserving removal of duplicate labels (keeps the first occurrence),
used for the column set of `pd.DataFrame(list_of_dicts)` and the index union of
`pd.concat(axis=1)` with `sort=False`. `seen` accumulates labels already kept. -/
def dedupFirstAux (seen : List String) : List String → List String
  | [] => []
  | a :: l => if a ∈ seen then dedupFirstAux seen l else a :: dedupFirstAux (a :: seen) l

/-- Order-preserving deduplication keeping first occurrences. -/
def dedupFirst (l : List String) : List String := dedupFirstAux [] l

/-- Model of `DataFrame.fillna(v)`: every NaN/None cell becomes the string `v`; index
labels and columns are unchanged. -/
def DataFrame.fillna (df : DataFrame) (v : String) : DataFrame :=
  ⟨df.cols, df.rows.map fun r => (r.1, r.2.map fun c => some (c.getD v))⟩

/-- The column labels of `pd.DataFrame(list_of_dicts)`: the field names in
order of first appearance across the records. -/
def recordFields (items : List CIRecord) : List String :=
  dedupFirst (items.flatMap (·.map Prod.fst))

/-- Model of `pd.DataFrame(list_of_dicts)`: rows keep the list order, with the
positional RangeIndex rendered as a string label (the label is discarded by the
`set_index` that follows in the source); a record without a field yields NaN in
that column. -/
def pdDataFrameOfRecords (items : List CIRecord) : DataFrame :=
  ⟨recordFields items,
   items.enum.map fun p => (toString p.1, (recordFields items).map fun c => p.2.lookup c)⟩

/-- Model of `DataFrame.set_index(col)`: raises `KeyError` when `col` is not a column;
otherwise the values of that column become the index labels and the column is
removed. In this script the column has already been `fillna`-filled, so the
`none` branch of the label (pandas would use a NaN label) is unreachable;
`"nan"` stands in for it. -/
def DataFrame.set_index (df : DataFrame) (col : String) : Except PyError DataFrame :=
  if col ∈ df.cols then
    let i := df.cols.indexOf col
    .ok ⟨df.cols.eraseIdx i, df.rows.map fun r => ((r.2.getD i none).getD "nan", r.2.eraseIdx i)⟩
  else .error (.keyError col)

/-- Model of `df.columns = [f'CIRCLECI_{col}' for col in df.columns]`, generalised: relabel
every column with a prefix. -/
def DataFrame.prefixCols (df : DataFrame) (p : String) : DataFrame :=
  ⟨df.cols.map (p ++ ·), df.rows⟩

/-- Model of `df[sel]`: column selection/reordering; raises `KeyError` when a requested
label is absent. With duplicate column labels pandas would return several
columns per label; the script never builds duplicate labels before a selection,
so the first matching column is used. -/
def DataFrame.selectCols (df : DataFrame) (sel : List String) : Except PyError DataFrame :=
  if _h : ∀ c ∈ sel, c ∈ df.cols then
    .ok ⟨sel, df.rows.map fun r => (r.1, sel.map fun c => r.2.getD (df.cols.indexOf c) none)⟩
  else .error (.keyError (toString (sel.filter (!df.cols.contains ·))))

/-- Python compares strings by code point, lexicographically on the character
sequence; pandas inherits this for string labels. `Char.val` is the code
point, so this executable comparator mirrors the Python order. -/
def charListLe : List Char → List Char → Bool
  | [], _ => true
  | _ :: _, [] => false
  | a :: as, b :: bs =>
    if a.val.toNat = b.val.toNat then charListLe as bs
    else decide (a.val.toNat < b.val.toNat)

/-- The Python string order `a <= b`, on the underlying character lists. -/
def strLe (a b : String) : Bool := charListLe a.data b.data

/-- Rows sorted by index label: `DataFrame.sort_index()` on a string index
(pandas sorts Python strings by code point; row keys here are unique, so
stability of the sort is irrelevant). -/
def sortRows (rows : List (String × List Cell)) : List (String × List Cell) :=
  List.insertionSort (fun a b => strLe a.1 b.1 = true) rows

/-- Embedding of `get_local_env_vars`: reads every required name from the process
environment, builds the one-column frame `['local']` keyed by variable name and
row-sorted by `sort_index()`, and also returns the raw name/value mapping. -/
def get_local_env_vars (env : String → Option String) :
    DataFrame × List (String × Option String) :=
  let env_vars_data := REQUIRED_ENV_VARS.map fun v => (v, env v)
  (⟨["local"], sortRows (env_vars_data.map fun p => (p.1, [p.2]))⟩, env_vars_data)

/-- Model of `pd.DataFrame.from_dict(config_vars, orient="index", columns=[app_name])`:
one column named after the application, keyed by the JSON object's keys in
order. -/
def df_from_config_vars (config_vars : ConfigVars) (app_name : String) : DataFrame :=
  ⟨[app_name], config_vars.map fun p => (p.1, [some p.2])⟩

/-- Embedding of `get_heroku_env_vars(app_name)`: asserts the credential is present, sends
the request, parses the body (line 92 runs `response.json()` before any status
check, so an unparseable body raises for every status), and dispatches on the
status code. Returns the emitted `logging.error` messages together with the
`(DataFrame, raw json)` pair, `none` standing for the Python `None, None`. -/
def get_heroku_env_vars (w : World) (app_name : String) :
    Except PyError (List LogMsg × Option (DataFrame × ConfigVars)) :=
  match w.env "HEROKU_API_KEY" with
  | none => .error (.assertionError herokuKeyAssertMsg)
  | some _token =>
    match w.heroku app_name with
    | .netError => .error .requestError
    | .response status body =>
      match body with
      | none => .error .jsonDecodeError
      | some config_vars =>
        if status = 200 then
          .ok ([], some (df_from_config_vars config_vars app_name, config_vars))
        else if status = 401 then
          match config_vars.lookup "id" with
          | none => .error (.keyError "id")
          | some idv =>
            if idv = "unauthorized" then
              match config_vars.lookup "message" with
              | none => .error (.keyError "message")
              | some msg =>
                .ok ([.authFailure status idv msg, .curlRemediation], none)
            else .ok ([.otherFailure status], none)
        else .ok ([.otherFailure status], none)

/-- Embedding of `get_circleci_env_vars_keys_values_to_df`: sends the listing request,
raises `HTTPError` on a 4xx/5xx status (`raise_for_status`), parses the body,
then reshapes: build the record frame, `fillna("not_set")`, `set_index('name')`,
prefix every column with `CIRCLECI_`, and select the two fixed columns. -/
def get_circleci_env_vars_keys_values_to_df (w : World) :
    Except PyError (DataFrame × List CIRecord) :=
  match w.circleci with
  | .netError => .error .requestError
  | .response status body =>
    if 400 ≤ status then .error (.httpError status)
    else
      match body with
      | none => .error .jsonDecodeError
      | some payload_data =>
        match ((pdDataFrameOfRecords payload_data).fillna "not_set").set_index "name" with
        | .error e => .error e
        | .ok df2 =>
          match (df2.prefixCols "CIRCLECI_").selectCols
              ["CIRCLECI_created_at", "CIRCLECI_value"] with
          | .error e => .error e
          | .ok df_circleci => .ok (df_circleci, payload_data)

/-- Embedding of `get_circleci_env_vars_keys`: wraps the fetch/reshape in
`try ... except requests.RequestException`, turning request-level failures into
the Python `None, None` result; any other exception propagates. -/
def get_circleci_env_vars_keys (w : World) :
    Except PyError (Option (DataFrame × List CIRecord)) :=
  match get_circleci_env_vars_keys_values_to_df w with
  | .ok r => .ok (some r)
  | .error e => if e.isRequestException then .ok none else .error e

/-- The seed frame of `get_all_vars_into_matrix`: one `REQUIRED_ENV_VARS`
column, keyed by the required names, every cell the constant `"Yes"`. -/
def df_required : DataFrame :=
  ⟨["REQUIRED_ENV_VARS"], REQUIRED_ENV_VARS.map fun v => (v, [some "Yes"])⟩

/-- The index union of `pd.concat(axis=1, sort=False)`: labels in order of first
appearance across the frames. -/
def unionKeys (frames : List DataFrame) : List String :=
  dedupFirst (frames.flatMap DataFrame.keys)

/-- The merged row for label `k`: each frame contributes its cells when it has
the label and one NaN per column otherwise (the outer-join fill). -/
def rowFor (frames : List DataFrame) (k : String) : List Cell :=
  frames.flatMap fun d =>
    match d.rows.find? (fun r => r.1 == k) with
    | some r => r.2
    | none => List.replicate d.cols.length none

/-- Model of `pd.concat(objs, axis=1)`: the `None` entries are dropped silently; frames are
aligned on the union of their indexes (an outer join). When the indexes are not
all identical pandas reindexes each frame, which raises `InvalidIndexError` if
any frame's index has duplicate labels; identical-with-duplicates indexes
cannot arise in this script (the seed frame's index is duplicate-free), so the
duplicate check is modelled unconditionally. -/
def concatAxis1 (objs : List (Option DataFrame)) : Except PyError DataFrame :=
  if _h : ∀ d ∈ objs.filterMap id, d.keys.Nodup then
    .ok ⟨(objs.filterMap id).flatMap DataFrame.cols,
         (unionKeys (objs.filterMap id)).map fun k => (k, rowFor (objs.filterMap id) k)⟩
  else .error .invalidIndexError

/-- The grouping key of a merged row: its cell in the grouping column (position
`i`), `none` when that cell is NaN (pandas drops such rows from every group). -/
def groupKey (i : Nat) (r : String × List Cell) : Option String :=
  r.2.getD i none

/-- Line 173 of the source:
`df.groupby('REQUIRED_ENV_VARS', group_keys=False).apply(lambda x: x.sort_index(), include_groups=False)`.
Raises `KeyError` when the grouping column is absent and `ValueError` when the
label is duplicated. Groups are the distinct non-NaN values of the grouping
column in ascending order; each group keeps its rows sorted by index label, and
`include_groups=False` drops the grouping column from the result. pandas would
reassemble the original row order if every group were already sorted (the
"transform" fast path); that path is unreachable here because the seed group is
the required list, whose declared order is not alphabetical. -/
def finalGroupSort (df : DataFrame) : Except PyError DataFrame :=
  if _hc : df.cols.count "REQUIRED_ENV_VARS" = 1 then
    let i := df.cols.indexOf "REQUIRED_ENV_VARS"
    let groups := List.insertionSort (fun a b => strLe a b = true)
      (df.rows.filterMap (groupKey i)).dedup
    .ok ⟨df.cols.eraseIdx i,
         groups.flatMap fun g =>
           (sortRows (df.rows.filter fun r => groupKey i r == some g)).map
             fun r => (r.1, r.2.eraseIdx i)⟩
  else if "REQUIRED_ENV_VARS" ∈ df.cols then
    .error (.valueError "Grouper for REQUIRED_ENV_VARS not 1-dimensional")
  else .error (.keyError "REQUIRED_ENV_VARS")

/-- The per-application loop of `get_all_vars_into_matrix`: fetch each
application in order, keep the frames of successful fetches, skip the `None`
results (printing the credentials hint), and let any exception abort the loop. -/
def collect_heroku_frames (w : World) : List String → Except PyError (List DataFrame)
  | [] => .ok []
  | app :: rest =>
    match get_heroku_env_vars w app with
    | .error e => .error e
    | .ok (_logs, result) =>
      match collect_heroku_frames w rest with
      | .error e => .error e
      | .ok tail =>
        match result with
        | some (df_app_vars, _) => .ok (df_app_vars :: tail)
        | none => .ok tail

/-- The `all_dataframes` list of `get_all_vars_into_matrix`: the required-flag
seed frame, the local frame, the CircleCI result (possibly `None`) and one frame
per successfully fetched application, in that order. -/
def source_frames (w : World) (apps : List String) :
    Except PyError (List (Option DataFrame)) :=
  match get_circleci_env_vars_keys w with
  | .error e => .error e
  | .ok ci =>
    match collect_heroku_frames w apps with
    | .error e => .error e
    | .ok appFrames =>
      .ok ([some df_required, some (get_local_env_vars w.env).1, ci.map Prod.fst]
            ++ appFrames.map some)

/-- Line 172 of the source: `pd.concat(all_dataframes, axis=1).fillna("not_set")`. -/
def merged_df_final (w : World) (apps : List String) : Except PyError DataFrame :=
  match source_frames w apps with
  | .error e => .error e
  | .ok objs =>
    match concatAxis1 objs with
    | .error e => .error e
    | .ok df => .ok (df.fillna "not_set")

/-- Embedding of `get_all_vars_into_matrix(heroku_app_targets)`: gather all sources, merge
with sentinel fill, and group-sort for display. -/
def get_all_vars_into_matrix (w : World) (heroku_app_targets : List String) :
    Except PyError DataFrame :=
  match merged_df_final w heroku_app_targets with
  | .error e => .error e
  | .ok df_final => finalGroupSort df_final

/-- A CircleCI interaction that fails at the request level: the connection
raised, the status is an error status (`raise_for_status`), or the body is
unparseable (`Response.json()` raising the requests `JSONDecodeError`). -/
def ciFails (w : World) : Prop :=
  w.circleci = .netError ∨
    ∃ st body, w.circleci = .response st body ∧ (400 ≤ st ∨ body = none)

/-! ### Concrete worlds used to instantiate the theorems -/

/-- Empty environment; both endpoints unreachable. -/
def wAllDown : World := ⟨fun _ => none, .netError, fun _ => .netError⟩

/-- Same observable behaviour as `wAllDown`, written differently. -/
def wAllDown2 : World :=
  ⟨fun v => if v = "ZZZ_UNUSED" then none else none, .netError, fun _ => .netError⟩

/-- Credential set; every Heroku request answers 200 with an unparseable body. -/
def wBadBody : World :=
  ⟨fun v => if v = "HEROKU_API_KEY" then some "secret" else none, .netError,
   fun _ => .response 200 none⟩

/-- CircleCI lists successfully but with an empty `items` list. -/
def wEmptyCI : World :=
  ⟨fun _ => none, .response 200 (some []), fun _ => .netError⟩

/-- Credential set; every Heroku request answers 401 with the documented
unauthorized error body. -/
def wUnauthorized : World :=
  ⟨fun v => if v = "HEROKU_API_KEY" then some "expired" else none, .netError,
   fun _ => .response 401
     (some [("id", "unauthorized"), ("message", "Invalid credentials provided.")])⟩

/-- Credential set; every Heroku request answers 401 with a parseable body that
lacks the `id` field. -/
def wNoId : World :=
  ⟨fun v => if v = "HEROKU_API_KEY" then some "k" else none, .netError,
   fun _ => .response 401 (some [("message", "oops")])⟩

/-- CircleCI lists successfully but its single record lacks the `name` field. -/
def wBadItems : World :=
  ⟨fun _ => none, .response 200 (some [[("value", "xxxx")]]), fun _ => .netError⟩

/-- A healthy world: credential and one required variable set locally, one
CircleCI variable, one responding application holding one required and one
extra variable. -/
def wHealthy : World :=
  ⟨fun v => if v = "HEROKU_API_KEY" then some "secret" else
      if v = "PORT" then some "8080" else none,
   .response 200 (some [[("name", "BUILD_FLAG"), ("created_at", "2024-01-01"),
                         ("value", "xxxx")]]),
   fun a => if a = "urban-robot-dev" then
       .response 200 (some [("API_HOST", "h.example"), ("EXTRA_VAR", "e")])
     else .netError⟩

/-- Alignment invariant of a DataFrame: every row has one cell per column. -/
def DataFrame.WF (df : DataFrame) : Prop := ∀ r ∈ df.rows, r.2.length = df.cols.length

/-- Totality of `charListLe`. -/
theorem charListLe_total : ∀ a b, charListLe a b = true ∨ charListLe b a = true := by
  intro a
  induction a with
  | nil => intro b; left; rfl
  | cons x as ih =>
    intro b
    cases b with
    | nil => right; rfl
    | cons y bs =>
      by_cases h : x.val.toNat = y.val.toNat
      · simp only [charListLe]
        rw [if_pos h, if_pos h.symm]
        exact ih bs
      · have h2 : ¬ y.val.toNat = x.val.toNat := fun e => h e.symm
        simp only [charListLe]
        rw [if_neg h, if_neg h2, decide_eq_true_eq, decide_eq_true_eq]
        omega

/-- Transitivity of `charListLe`. -/
theorem charListLe_trans :
    ∀ a b c, charListLe a b = true → charListLe b c = true → charListLe a c = true := by
  intro a
  induction a with
  | nil => intro b c _ _; rfl
  | cons x as ih =>
    intro b c hab hbc
    cases b with
    | nil => simp [charListLe] at hab
    | cons y bs =>
      cases c with
      | nil => simp [charListLe] at hbc
      | cons z cs =>
        simp only [charListLe] at hab hbc ⊢
        by_cases hxy : x.val.toNat = y.val.toNat <;>
          by_cases hyz : y.val.toNat = z.val.toNat
        · rw [if_pos hxy] at hab
          rw [if_pos hyz] at hbc
          rw [if_pos (hxy.trans hyz)]
          exact ih bs cs hab hbc
        · rw [if_pos hxy] at hab
          rw [if_neg hyz, decide_eq_true_eq] at hbc
          rw [if_neg (by omega), decide_eq_true_eq]
          omega
        · rw [if_neg hxy, decide_eq_true_eq] at hab
          rw [if_pos hyz] at hbc
          rw [if_neg (by omega), decide_eq_true_eq]
          omega
        · rw [if_neg hxy, decide_eq_true_eq] at hab
          rw [if_neg hyz, decide_eq_true_eq] at hbc
          rw [if_neg (by omega), decide_eq_true_eq]
          omega

instance : IsTrans (String × List Cell) (fun a b => strLe a.1 b.1 = true) :=
  ⟨fun _ _ _ h h2 => charListLe_trans _ _ _ h h2⟩

instance : IsTotal (String × List Cell) (fun a b => strLe a.1 b.1 = true) :=
  ⟨fun a b => charListLe_total a.1.data b.1.data⟩

instance : IsTrans String (fun a b => strLe a b = true) :=
  ⟨fun _ _ _ h h2 => charListLe_trans _ _ _ h h2⟩

instance : IsTotal String (fun a b => strLe a b = true) :=
  ⟨fun a b => charListLe_total a.data b.data⟩

/-- The source frames of the healthy run, used to instantiate the
merge-structure theorems. -/
def objsHealthy : List (Option DataFrame) :=
  ((source_frames wHealthy ["urban-robot-dev"]).toOption).getD []

/-- The merged frame (line 172) of the healthy run. -/
def mHealthy : DataFrame :=
  ((merged_df_final wHealthy ["urban-robot-dev"]).toOption).getD ⟨[], []⟩

/-- The returned table (line 173) of the healthy run. -/
def dfHealthy : DataFrame :=
  ((get_all_vars_into_matrix wHealthy ["urban-robot-dev"]).toOption).getD ⟨[], []⟩

/-! ### Library of facts about the embedded operations -/

theorem mem_dedupFirstAux {x : String} :
    ∀ (seen l : List String), x ∈ dedupFirstAux seen l ↔ x ∈ l ∧ x ∉ seen := by
  intro seen l
  induction l generalizing seen with
  | nil => simp [dedupFirstAux]
  | cons a l ih =>
    by_cases ha : a ∈ seen
    · by_cases hxa : x = a <;> simp_all [dedupFirstAux, ha, ih]
    · by_cases hxa : x = a <;> simp_all [dedupFirstAux, ha, ih]

theorem nodup_dedupFirstAux : ∀ (seen l : List String), (dedupFirstAux seen l).Nodup := by
  intro seen l
  induction l generalizing seen with
  | nil => simp [dedupFirstAux]
  | cons a l ih =>
    by_cases ha : a ∈ seen
    · simpa [dedupFirstAux, ha] using ih seen
    · simp only [dedupFirstAux, ha, if_false, List.nodup_cons]
      refine ⟨fun hmem => ?_, ih _⟩
      exact ((mem_dedupFirstAux _ _).mp hmem).2 (List.mem_cons_self a seen)

theorem mem_dedupFirst {x : String} {l : List String} : x ∈ dedupFirst l ↔ x ∈ l := by
  simp [dedupFirst, mem_dedupFirstAux]

theorem nodup_dedupFirst (l : List String) : (dedupFirst l).Nodup :=
  nodup_dedupFirstAux [] l

theorem find?_key_map {β : Type} (f : String → β) {v : String} :
    ∀ {l : List String}, v ∈ l →
      (l.map fun x => (x, f x)).find? (fun r => r.1 == v) = some (v, f v) := by
  intro l hv
  induction l with
  | nil => cases hv
  | cons a l ih =>
    by_cases hav : a = v
    · subst hav; simp
    · have hvl : v ∈ l := by
        rcases List.mem_cons.mp hv with h | h
        · exact absurd h.symm hav
        · exact h
      rw [List.map_cons, List.find?_cons_of_neg, ih hvl]
      simpa using hav

theorem find?_key_eq_none {d : DataFrame} {v : String} (h : v ∉ d.keys) :
    d.rows.find? (fun r => r.1 == v) = none := by
  rw [List.find?_eq_none]
  intro x hx
  simp only [beq_iff_eq]
  intro hxv
  exact h (hxv ▸ List.mem_map_of_mem Prod.fst hx)

theorem rowFor_cons (d : DataFrame) (frames : List DataFrame) (k : String) :
    rowFor (d :: frames) k =
      (match d.rows.find? (fun r => r.1 == k) with
       | some r => r.2
       | none => List.replicate d.cols.length none) ++ rowFor frames k := by
  simp [rowFor]

/-! ### Behaviour of the fetchers on failing sources -/

theorem heroku_unauthorized {w : World} {app k : String} {body : ConfigVars} {msg : String}
    (hk : w.env "HEROKU_API_KEY" = some k)
    (hresp : w.heroku app = .response 401 (some body))
    (hid : body.lookup "id" = some "unauthorized")
    (hmsg : body.lookup "message" = some msg) :
    get_heroku_env_vars w app =
      .ok ([.authFailure 401 "unauthorized" msg, .curlRemediation], none) := by
  simp [get_heroku_env_vars, hk, hresp, hid, hmsg]

theorem collect_cons_none {w : World} {app : String} {logs : List LogMsg} {rest : List String}
    (h : get_heroku_env_vars w app = .ok (logs, none)) :
    collect_heroku_frames w (app :: rest) = collect_heroku_frames w rest := by
  simp only [collect_heroku_frames, h]
  cases collect_heroku_frames w rest <;> rfl

theorem collect_skip {w : World} {app : String} {logs : List LogMsg}
    (h : get_heroku_env_vars w app = .ok (logs, none)) (pre rest : List String) :
    collect_heroku_frames w (pre ++ app :: rest) = collect_heroku_frames w (pre ++ rest) := by
  induction pre with
  | nil => simpa using collect_cons_none h
  | cons p pre ih =>
    simp only [List.cons_append, collect_heroku_frames, List.append_eq]
    rw [ih]

theorem run_skip_app {w : World} {app : String} {logs : List LogMsg}
    (h : get_heroku_env_vars w app = .ok (logs, none)) (pre rest : List String) :
    get_all_vars_into_matrix w (pre ++ app :: rest) =
      get_all_vars_into_matrix w (pre ++ rest) := by
  simp only [get_all_vars_into_matrix, merged_df_final, source_frames, collect_skip h]

theorem run_ci_error {w : World} {e : PyError}
    (h : get_circleci_env_vars_keys w = .error e) (apps : List String) :
    get_all_vars_into_matrix w apps = .error e := by
  simp [get_all_vars_into_matrix, merged_df_final, source_frames, h]

theorem ci_recovers {w : World} (h : ciFails w) : get_circleci_env_vars_keys w = .ok none := by
  rcases h with h | ⟨st, body, h, hst | hbody⟩
  · simp [get_circleci_env_vars_keys, get_circleci_env_vars_keys_values_to_df, h,
      PyError.isRequestException]
  · simp [get_circleci_env_vars_keys, get_circleci_env_vars_keys_values_to_df, h, hst,
      PyError.isRequestException]
  · subst hbody
    by_cases hst : 400 ≤ st <;>
      simp [get_circleci_env_vars_keys, get_circleci_env_vars_keys_values_to_df, h, hst,
        PyError.isRequestException]

theorem ci_reshape_error_propagates {w : World} {e : PyError}
    (h : get_circleci_env_vars_keys_values_to_df w = .error e)
    (hnot : e.isRequestException = false) :
    get_circleci_env_vars_keys w = .error e := by
  simp [get_circleci_env_vars_keys, h, hnot]

theorem run_collect_error {w : World} {apps : List String} {e : PyError}
    {s : Option (DataFrame × List CIRecord)}
    (hci : get_circleci_env_vars_keys w = .ok s)
    (hcol : collect_heroku_frames w apps = .error e) :
    get_all_vars_into_matrix w apps = .error e := by
  simp [get_all_vars_into_matrix, merged_df_final, source_frames, hci, hcol]

theorem collect_error_at {w : World} {app : String} {e : PyError}
    (happ : get_heroku_env_vars w app = .error e) :
    ∀ (pre : List String), (∃ l, collect_heroku_frames w pre = .ok l) →
      ∀ rest, collect_heroku_frames w (pre ++ app :: rest) = .error e := by
  intro pre
  induction pre with
  | nil =>
    intro _ rest
    simp [collect_heroku_frames, happ]
  | cons p pre ih =>
    rintro ⟨l, hl⟩ rest
    simp only [collect_heroku_frames, List.cons_append, List.append_eq] at hl ⊢
    cases hfp : get_heroku_env_vars w p with
    | error e2 => rw [hfp] at hl; cases hl
    | ok r =>
      rw [hfp] at hl
      obtain ⟨lg, res⟩ := r
      cases hcp : collect_heroku_frames w pre with
      | error e2 => rw [hcp] at hl; cases hl
      | ok tail => simp [ih ⟨tail, hcp⟩ rest]

theorem heroku_assert_fails {w : World} (hk : w.env "HEROKU_API_KEY" = none) (a : String) :
    get_heroku_env_vars w a = .error (.assertionError herokuKeyAssertMsg) := by
  simp [get_heroku_env_vars, hk]

/-! ### Claim theorems: error handling and determinism -/

/-- C2 (amended): a CircleCI failure of any kind (network error, error status,
unparseable body) is recovered — the fetch yields no table and the merge covers
the remaining sources; a Heroku 401 whose parseable body carries the recognized
unauthorized identifier and its message is recovered — the run equals the run
without that application; but a Heroku network error or unparseable body raises
an uncaught exception that aborts the whole run. -/
theorem C2_per_source_failure :
    (∀ w : World, ciFails w → get_circleci_env_vars_keys w = .ok none) ∧
    (∀ (w : World) (app k : String) (body : ConfigVars) (msg : String),
      w.env "HEROKU_API_KEY" = some k →
      w.heroku app = .response 401 (some body) →
      body.lookup "id" = some "unauthorized" →
      body.lookup "message" = some msg →
      ∀ pre rest, get_all_vars_into_matrix w (pre ++ app :: rest) =
        get_all_vars_into_matrix w (pre ++ rest)) ∧
    (∀ (w : World) (app k : String) (s : Option (DataFrame × List CIRecord))
       (pre : List String) (l : List DataFrame) (st : Nat),
      w.env "HEROKU_API_KEY" = some k →
      get_circleci_env_vars_keys w = .ok s →
      collect_heroku_frames w pre = .ok l →
      (w.heroku app = .netError →
        ∀ rest, get_all_vars_into_matrix w (pre ++ app :: rest) = .error .requestError) ∧
      (w.heroku app = .response st none →
        ∀ rest, get_all_vars_into_matrix w (pre ++ app :: rest) = .error .jsonDecodeError)) := by
  refine ⟨fun w h => ci_recovers h, ?_, ?_⟩
  · intro w app k body msg hk hresp hid hmsg pre rest
    exact run_skip_app (heroku_unauthorized hk hresp hid hmsg) pre rest
  · intro w app k s pre l st hk hci hpre
    constructor
    · intro hresp rest
      have happ : get_heroku_env_vars w app = .error .requestError := by
        simp [get_heroku_env_vars, hk, hresp]
      exact run_collect_error hci (collect_error_at happ pre ⟨l, hpre⟩ rest)
    · intro hresp rest
      have happ : get_heroku_env_vars w app = .error .jsonDecodeError := by
        simp [get_heroku_env_vars, hk, hresp]
      exact run_collect_error hci (collect_error_at happ pre ⟨l, hpre⟩ rest)

/-- C2 counterexample: with the credential set and an application whose response
body does not parse, the run aborts with the JSON decoding error instead of
producing a merged table covering the other sources. -/
theorem C2_counterexample :
    get_all_vars_into_matrix wBadBody ["urban-robot-dev"] = .error .jsonDecodeError := by
  rfl

/-- C2 witness: the amended statement instantiated at concrete worlds. -/
theorem C2_witness :
    get_circleci_env_vars_keys wAllDown = .ok none ∧
    get_all_vars_into_matrix wUnauthorized ["urban-robot-dev"] =
      get_all_vars_into_matrix wUnauthorized [] ∧
    get_all_vars_into_matrix wBadBody ["urban-robot-staging"] = .error .jsonDecodeError := by
  refine ⟨C2_per_source_failure.1 wAllDown (Or.inl rfl), ?_, ?_⟩
  · have h := C2_per_source_failure.2.1 wUnauthorized "urban-robot-dev" "expired"
      [("id", "unauthorized"), ("message", "Invalid credentials provided.")]
      "Invalid credentials provided." rfl rfl rfl rfl [] []
    simpa using h
  · have h := (C2_per_source_failure.2.2 wBadBody "urban-robot-staging" "secret" none [] [] 200
      rfl rfl rfl).2 rfl []
    simpa using h

/-- C3 (amended): when the deployment-host credential is absent the local and
CI steps still run (the CI fetch below completes with some result `s`), but the
first per-application fetch raises an uncaught AssertionError that aborts the
matrix builder: no merged table is returned when at least one application is
configured. -/
theorem C3_missing_credential_aborts (w : World) (s : Option (DataFrame × List CIRecord))
    (a : String) (rest : List String)
    (hk : w.env "HEROKU_API_KEY" = none)
    (hci : get_circleci_env_vars_keys w = .ok s) :
    get_heroku_env_vars w a = .error (.assertionError herokuKeyAssertMsg) ∧
    get_all_vars_into_matrix w (a :: rest) = .error (.assertionError herokuKeyAssertMsg) := by
  have happ := heroku_assert_fails hk a
  refine ⟨happ, ?_⟩
  have hcol := collect_error_at happ [] ⟨[], rfl⟩ rest
  exact run_collect_error hci (by simpa using hcol)

/-- C3 counterexample: with no credential in the environment and one configured
application, the run aborts with the assertion error instead of returning a
degraded merged table. -/
theorem C3_counterexample :
    get_all_vars_into_matrix wAllDown ["urban-robot-dev"]
      = .error (.assertionError herokuKeyAssertMsg) := by
  rfl

/-- C3 witness: the amended statement instantiated at a concrete world. -/
theorem C3_witness :
    get_heroku_env_vars wAllDown "urban-robot-dev"
      = .error (.assertionError herokuKeyAssertMsg) ∧
    get_all_vars_into_matrix wAllDown ["urban-robot-dev", "urban-robot"]
      = .error (.assertionError herokuKeyAssertMsg) :=
  C3_missing_credential_aborts wAllDown none "urban-robot-dev" ["urban-robot"] rfl rfl

/-- C5 counterexample: a successful CircleCI listing whose items list is empty
makes `set_index('name')` raise `KeyError` (the empty record frame has no
columns); the error is not a RequestException, so it propagates and the run
aborts instead of proceeding with CI fields read as not_set. -/
theorem C5_counterexample :
    get_circleci_env_vars_keys wEmptyCI = .error (.keyError "name") ∧
    get_all_vars_into_matrix wEmptyCI [] = .error (.keyError "name") :=
  ⟨rfl, rfl⟩

/-- C7: a 401 response carrying the documented unauthorized body makes the
fetcher log the status/id/message diagnostic plus the curl remediation hint and
return the Python `None, None`; the orchestrator then produces exactly the
table it would produce without that application. -/
theorem C7_unauthorized_recovery (w : World) (app k : String) (body : ConfigVars)
    (msg : String) (pre rest : List String)
    (hk : w.env "HEROKU_API_KEY" = some k)
    (hresp : w.heroku app = .response 401 (some body))
    (hid : body.lookup "id" = some "unauthorized")
    (hmsg : body.lookup "message" = some msg) :
    get_heroku_env_vars w app =
      .ok ([.authFailure 401 "unauthorized" msg, .curlRemediation], none) ∧
    get_all_vars_into_matrix w (pre ++ app :: rest) =
      get_all_vars_into_matrix w (pre ++ rest) :=
  ⟨heroku_unauthorized hk hresp hid hmsg,
   run_skip_app (heroku_unauthorized hk hresp hid hmsg) pre rest⟩

/-- C7 witness: the statement instantiated at a concrete world. -/
theorem C7_witness :
    get_heroku_env_vars wUnauthorized "urban-robot" =
      .ok ([.authFailure 401 "unauthorized" "Invalid credentials provided.",
            .curlRemediation], none) ∧
    get_all_vars_into_matrix wUnauthorized ["urban-robot"] =
      get_all_vars_into_matrix wUnauthorized [] := by
  have h := C7_unauthorized_recovery wUnauthorized "urban-robot" "expired"
    [("id", "unauthorized"), ("message", "Invalid credentials provided.")]
    "Invalid credentials provided." [] [] rfl rfl rfl rfl
  simpa using h

/-- C8: the run is a pure function of its observable inputs — two worlds that
agree pointwise on the environment and on every response produce identical
merged tables for the same application list. -/
theorem C8_deterministic (w1 w2 : World) (apps : List String)
    (henv : ∀ v, w1.env v = w2.env v)
    (hheroku : ∀ a, w1.heroku a = w2.heroku a)
    (hci : w1.circleci = w2.circleci) :
    get_all_vars_into_matrix w1 apps = get_all_vars_into_matrix w2 apps := by
  obtain ⟨e1, c1, h1⟩ := w1
  obtain ⟨e2, c2, h2⟩ := w2
  cases funext henv
  cases funext hheroku
  cases hci
  rfl

/-- C8 witness: two syntactically different but observably equal worlds. -/
theorem C8_witness :
    get_all_vars_into_matrix wAllDown ["urban-robot-dev"] =
      get_all_vars_into_matrix wAllDown2 ["urban-robot-dev"] :=
  C8_deterministic wAllDown wAllDown2 ["urban-robot-dev"]
    (fun v => by simp [wAllDown, wAllDown2]) (fun _ => rfl) rfl

/-- C9: a 401 whose parsed body has no `id` field makes the 401 branch's
unguarded body lookup raise `KeyError`, which propagates instead of reaching
the generic non-200 branch and its `None, None` result. -/
theorem C9_missing_id_raises (w : World) (app k : String) (body : ConfigVars)
    (hk : w.env "HEROKU_API_KEY" = some k)
    (hresp : w.heroku app = .response 401 (some body))
    (hid : body.lookup "id" = none) :
    get_heroku_env_vars w app = .error (.keyError "id") := by
  simp [get_heroku_env_vars, hk, hresp, hid]

/-- C9 witness: the statement instantiated at a concrete world. -/
theorem C9_witness :
    get_heroku_env_vars wNoId "urban-robot-dev" = .error (.keyError "id") :=
  C9_missing_id_raises wNoId "urban-robot-dev" "k" [("message", "oops")] rfl rfl rfl

/-- C10: the CI wrapper's `except requests.RequestException` catches only
request-level errors: a reshape failure (any error that is not a
RequestException) propagates out of `get_circleci_env_vars_keys` and aborts the
matrix builder. -/
theorem C10_reshape_error_propagates (w : World) (e : PyError)
    (h : get_circleci_env_vars_keys_values_to_df w = .error e)
    (hnot : e.isRequestException = false) :
    get_circleci_env_vars_keys w = .error e ∧
    ∀ apps, get_all_vars_into_matrix w apps = .error e :=
  ⟨ci_reshape_error_propagates h hnot,
   fun apps => run_ci_error (ci_reshape_error_propagates h hnot) apps⟩

/-- C10 witness: a record without the `name` field (KeyError, not a
RequestException) aborts fetcher and run. -/
theorem C10_witness :
    get_circleci_env_vars_keys wBadItems = .error (.keyError "name") ∧
    get_all_vars_into_matrix wBadItems ["urban-robot-dev"] = .error (.keyError "name") := by
  have h := C10_reshape_error_propagates wBadItems (.keyError "name") rfl rfl
  exact ⟨h.1, h.2 ["urban-robot-dev"]⟩

theorem map_eraseIdx_comm {α β : Type} (f : α → β) :
    ∀ (l : List α) (i : Nat), (l.map f).eraseIdx i = (l.eraseIdx i).map f := by
  intro l
  induction l with
  | nil => intro i; simp
  | cons a l ih =>
    intro i
    cases i with
    | zero => simp
    | succ n => simp [List.eraseIdx_cons_succ, ih n]

theorem getD_map_indexOf {β : Type} (f : String → β) (d : β) :
    ∀ (l : List String) (a : String), a ∈ l → (l.map f).getD (l.indexOf a) d = f a := by
  intro l
  induction l with
  | nil => intro a ha; cases ha
  | cons b l ih =>
    intro a ha
    by_cases hba : b = a
    · subst hba; simp [List.indexOf_cons_self]
    · have hal : a ∈ l := by
        rcases List.mem_cons.mp ha with h | h
        · exact absurd h.symm hba
        · exact h
      have hbeq : (b == a) = false := by simp [hba]
      rw [List.indexOf_cons, hbeq]
      simp only [cond_false, List.map_cons, List.getD_cons_succ]
      exact ih a hal

theorem mem_eraseIdx_indexOf {a b : String} (hab : a ≠ b) :
    ∀ {l : List String}, a ∈ l → a ∈ l.eraseIdx (l.indexOf b) := by
  intro l ha
  induction l with
  | nil => cases ha
  | cons c l ih =>
    by_cases hcb : c = b
    · subst hcb
      simp only [List.indexOf_cons_self, List.eraseIdx_cons_zero]
      rcases List.mem_cons.mp ha with h | h
      · exact absurd h hab
      · exact h
    · have hbeq : (c == b) = false := by simp [hcb]
      simp only [List.indexOf_cons, hbeq, cond_false, List.eraseIdx_cons_succ]
      rcases List.mem_cons.mp ha with h | h
      · exact h ▸ List.mem_cons_self c _
      · exact List.mem_cons_of_mem _ (ih h)

theorem string_append_cancel_left {p a b : String} (h : p ++ a = p ++ b) : a = b := by
  have hd := congrArg String.data h
  rw [String.data_append, String.data_append] at hd
  exact String.ext (List.append_cancel_left hd)

theorem indexOf_map_prefixed (p : String) :
    ∀ (l : List String) (a : String), (l.map (p ++ ·)).indexOf (p ++ a) = l.indexOf a := by
  intro l
  induction l with
  | nil => intro a; rfl
  | cons c l ih =>
    intro a
    by_cases hca : c = a
    · subst hca; simp [List.indexOf_cons_self]
    · have h1 : ((p ++ c) == (p ++ a)) = false := by
        refine beq_eq_false_iff_ne.mpr fun hc => hca (string_append_cancel_left hc)
      have h2 : (c == a) = false := by simp [hca]
      simp [List.indexOf_cons, h1, h2, ih a]

theorem enum_map_snd_fun {α β : Type} (g : α → β) (l : List α) :
    l.enum.map (fun p => g p.2) = l.map g := by
  have h : (fun p : Nat × α => g p.2) = g ∘ Prod.snd := rfl
  rw [h, ← List.map_map, List.enum_map_snd]

theorem ci_table_shape {w : World} {st : Nat} {items : List CIRecord}
    (hresp : w.circleci = .response st (some items)) (hst : st < 400)
    (hname : "name" ∈ recordFields items)
    (hcreated : "created_at" ∈ recordFields items)
    (hvalue : "value" ∈ recordFields items) :
    get_circleci_env_vars_keys_values_to_df w =
      .ok (⟨["CIRCLECI_created_at", "CIRCLECI_value"],
        items.map fun r => ((r.lookup "name").getD "not_set",
          [some ((r.lookup "created_at").getD "not_set"),
           some ((r.lookup "value").getD "not_set")])⟩, items) := by
  have hcn : ("created_at" : String) ≠ "name" := by decide
  have hvn : ("value" : String) ≠ "name" := by decide
  have hmc : "created_at" ∈ (recordFields items).eraseIdx ((recordFields items).indexOf "name") :=
    mem_eraseIdx_indexOf hcn hcreated
  have hmv : "value" ∈ (recordFields items).eraseIdx ((recordFields items).indexOf "name") :=
    mem_eraseIdx_indexOf hvn hvalue
  -- the record frame after `fillna("not_set")`
  have h1 : (pdDataFrameOfRecords items).fillna "not_set" =
      ⟨recordFields items, items.enum.map fun p =>
        (toString p.1, (recordFields items).map fun c => some ((p.2.lookup c).getD "not_set"))⟩ := by
    simp only [pdDataFrameOfRecords, DataFrame.fillna, List.map_map, DataFrame.mk.injEq, true_and]
    apply List.map_congr_left
    intro p _
    simp [Function.comp_def, List.map_map]
  -- after `set_index('name')`
  have h2 : ((pdDataFrameOfRecords items).fillna "not_set").set_index "name" =
      .ok ⟨(recordFields items).eraseIdx ((recordFields items).indexOf "name"),
        items.enum.map fun p =>
          ((p.2.lookup "name").getD "not_set",
           ((recordFields items).eraseIdx ((recordFields items).indexOf "name")).map
             fun c => some ((p.2.lookup c).getD "not_set"))⟩ := by
    rw [h1]
    simp only [DataFrame.set_index, hname, if_true, List.map_map, Except.ok.injEq,
      DataFrame.mk.injEq, true_and]
    apply List.map_congr_left
    intro p _
    rw [Function.comp_def]
    simp only [getD_map_indexOf _ _ _ _ hname, Option.getD_some, map_eraseIdx_comm]
  -- the final two-column selection
  simp only [get_circleci_env_vars_keys_values_to_df, hresp]
  rw [if_neg (by omega : ¬ 400 ≤ st)]
  rw [h2]
  simp only [DataFrame.prefixCols]
  rw [DataFrame.selectCols]
  rw [dif_pos]
  · simp only [Except.ok.injEq, Prod.mk.injEq, DataFrame.mk.injEq, true_and, and_true,
      List.map_map]
    rw [← enum_map_snd_fun (fun r => ((r.lookup "name").getD "not_set",
      [some ((r.lookup "created_at").getD "not_set"),
       some ((r.lookup "value").getD "not_set")])) items]
    apply List.map_congr_left
    intro p _
    rw [Function.comp_def]
    simp only [List.map_cons, List.map_nil, Prod.mk.injEq, true_and]
    rw [show ("CIRCLECI_created_at" : String) = "CIRCLECI_" ++ "created_at" from rfl]
    rw [show ("CIRCLECI_value" : String) = "CIRCLECI_" ++ "value" from rfl]
    rw [indexOf_map_prefixed, indexOf_map_prefixed]
    rw [getD_map_indexOf _ _ _ _ hmc, getD_map_indexOf _ _ _ _ hmv]
  · intro c hc
    rcases List.mem_cons.mp hc with h | h
    · exact h ▸ List.mem_map.mpr ⟨"created_at", hmc, rfl⟩
    · rcases List.mem_cons.mp h with h2 | h2
      · exact h2 ▸ List.mem_map.mpr ⟨"value", hmv, rfl⟩
      · cases h2

/-- C5 (amended): for a successful CircleCI listing whose records carry the
name, created_at and value fields, the fetcher returns exactly the two
CI-labelled columns (creation timestamp, value) indexed by name, absent cells
filled "not_set"; but for a successful listing whose items list is empty the
reshape raises an uncaught KeyError on the missing name column instead of
returning a table, so the spec's empty-CI scenario aborts the run before any
merge. -/
theorem C5_ci_fetcher_shape :
    (∀ (w : World) (st : Nat) (items : List CIRecord),
      w.circleci = .response st (some items) → st < 400 →
      "name" ∈ recordFields items → "created_at" ∈ recordFields items →
      "value" ∈ recordFields items →
      get_circleci_env_vars_keys w =
        .ok (some (⟨["CIRCLECI_created_at", "CIRCLECI_value"],
          items.map fun r => ((r.lookup "name").getD "not_set",
            [some ((r.lookup "created_at").getD "not_set"),
             some ((r.lookup "value").getD "not_set")])⟩, items))) ∧
    (∀ (w : World) (st : Nat),
      w.circleci = .response st (some []) → st < 400 →
      get_circleci_env_vars_keys w = .error (.keyError "name")) := by
  constructor
  · intro w st items hresp hst hname hcreated hvalue
    have h := ci_table_shape hresp hst hname hcreated hvalue
    simp [get_circleci_env_vars_keys, h]
  · intro w st hresp hst
    have h : get_circleci_env_vars_keys_values_to_df w = .error (.keyError "name") := by
      simp [get_circleci_env_vars_keys_values_to_df, hresp, Nat.not_le.mpr hst,
        pdDataFrameOfRecords, recordFields, dedupFirst, dedupFirstAux,
        DataFrame.fillna, DataFrame.set_index]
    simp [get_circleci_env_vars_keys, h, PyError.isRequestException]

/-- C5 witness: the amended statement at a one-record healthy listing and at an
empty listing. -/
theorem C5_witness :
    get_circleci_env_vars_keys wHealthy =
      .ok (some (⟨["CIRCLECI_created_at", "CIRCLECI_value"],
        [("BUILD_FLAG", [some "2024-01-01", some "xxxx"])]⟩,
        [[("name", "BUILD_FLAG"), ("created_at", "2024-01-01"), ("value", "xxxx")]])) ∧
    get_circleci_env_vars_keys wEmptyCI = .error (.keyError "name") := by
  constructor
  · rw [C5_ci_fetcher_shape.1 wHealthy 200
      [[("name", "BUILD_FLAG"), ("created_at", "2024-01-01"), ("value", "xxxx")]]
      rfl (by omega) (by decide) (by decide) (by decide)]
    rfl
  · exact C5_ci_fetcher_shape.2 wEmptyCI 200 rfl (by omega)

/-! ### Anatomy of a successful run -/

theorem run_ok_anatomy {w : World} {apps : List String} {df : DataFrame}
    (h : get_all_vars_into_matrix w apps = .ok df) :
    ∃ m, merged_df_final w apps = .ok m ∧ finalGroupSort m = .ok df := by
  unfold get_all_vars_into_matrix at h
  cases hm : merged_df_final w apps with
  | error e => simp only [hm] at h; cases h
  | ok m => simp only [hm] at h; exact ⟨m, rfl, h⟩

theorem merged_ok_anatomy {w : World} {apps : List String} {m : DataFrame}
    (h : merged_df_final w apps = .ok m) :
    ∃ objs c, source_frames w apps = .ok objs ∧ concatAxis1 objs = .ok c ∧
      m = c.fillna "not_set" := by
  unfold merged_df_final at h
  cases hs : source_frames w apps with
  | error e => simp only [hs] at h; cases h
  | ok objs =>
    simp only [hs] at h
    cases hc : concatAxis1 objs with
    | error e => simp only [hc] at h; cases h
    | ok c =>
      simp only [hc, Except.ok.injEq] at h
      exact ⟨objs, c, rfl, hc, h.symm⟩

theorem source_frames_ok_shape {w : World} {apps : List String} {objs : List (Option DataFrame)}
    (h : source_frames w apps = .ok objs) :
    ∃ ci appFrames, get_circleci_env_vars_keys w = .ok ci ∧
      collect_heroku_frames w apps = .ok appFrames ∧
      objs = [some df_required, some (get_local_env_vars w.env).1, ci.map Prod.fst]
        ++ appFrames.map some := by
  unfold source_frames at h
  cases hci : get_circleci_env_vars_keys w with
  | error e => simp only [hci] at h; cases h
  | ok ci =>
    simp only [hci] at h
    cases hcol : collect_heroku_frames w apps with
    | error e => simp only [hcol] at h; cases h
    | ok appFrames =>
      simp only [hcol, Except.ok.injEq] at h
      exact ⟨ci, appFrames, rfl, rfl, h.symm⟩

theorem concatAxis1_ok {objs : List (Option DataFrame)} {c : DataFrame}
    (h : concatAxis1 objs = .ok c) :
    (∀ d ∈ objs.filterMap id, d.keys.Nodup) ∧
    c = ⟨(objs.filterMap id).flatMap DataFrame.cols,
         (unionKeys (objs.filterMap id)).map fun k => (k, rowFor (objs.filterMap id) k)⟩ := by
  unfold concatAxis1 at h
  split at h
  · exact ⟨by assumption, (Except.ok.inj h).symm⟩
  · cases h

theorem finalGroupSort_ok {m df : DataFrame} (h : finalGroupSort m = .ok df) :
    m.cols.count "REQUIRED_ENV_VARS" = 1 ∧
    df = ⟨m.cols.eraseIdx (m.cols.indexOf "REQUIRED_ENV_VARS"),
      (List.insertionSort (fun a b => strLe a b = true)
          (m.rows.filterMap (groupKey (m.cols.indexOf "REQUIRED_ENV_VARS"))).dedup).flatMap
        fun g => (sortRows (m.rows.filter fun r =>
            groupKey (m.cols.indexOf "REQUIRED_ENV_VARS") r == some g)).map
          fun r => (r.1, r.2.eraseIdx (m.cols.indexOf "REQUIRED_ENV_VARS"))⟩ := by
  unfold finalGroupSort at h
  split at h
  · exact ⟨by assumption, (Except.ok.inj h).symm⟩
  · split at h <;> cases h

/-! ### Structure of the merged frame -/

theorem keys_df_required : df_required.keys = REQUIRED_ENV_VARS := by
  simp [df_required, DataFrame.keys, Function.comp_def]

theorem mem_unionKeys {frames : List DataFrame} {k : String} :
    k ∈ unionKeys frames ↔ ∃ d ∈ frames, k ∈ d.keys := by
  simp [unionKeys, mem_dedupFirst, List.mem_flatMap]

theorem unionKeys_nodup (frames : List DataFrame) : (unionKeys frames).Nodup :=
  nodup_dedupFirst _

theorem rowFor_head (frames : List DataFrame) (k : String) :
    rowFor (df_required :: frames) k =
      (if k ∈ REQUIRED_ENV_VARS then some "Yes" else none) :: rowFor frames k := by
  rw [rowFor_cons]
  by_cases hk : k ∈ REQUIRED_ENV_VARS
  · rw [if_pos hk]
    rw [show df_required.rows = REQUIRED_ENV_VARS.map (fun v => (v, [some "Yes"])) from rfl]
    rw [find?_key_map (fun _ => [some "Yes"]) hk]
    rfl
  · rw [if_neg hk]
    rw [find?_key_eq_none (by rwa [keys_df_required])]
    rfl

theorem merged_frames {w : World} {apps : List String} {m : DataFrame}
    (hm : merged_df_final w apps = .ok m) :
    ∃ (objs : List (Option DataFrame)) (rest : List DataFrame),
      source_frames w apps = .ok objs ∧
      objs.filterMap id = df_required :: rest ∧
      (∀ d ∈ objs.filterMap id, d.keys.Nodup) ∧
      m.cols = "REQUIRED_ENV_VARS" :: rest.flatMap DataFrame.cols ∧
      m.rows = (unionKeys (df_required :: rest)).map
        (fun k => (k, (rowFor (df_required :: rest) k).map fun c => some (c.getD "not_set"))) := by
  obtain ⟨objs, c, hs, hc, hmc⟩ := merged_ok_anatomy hm
  obtain ⟨ci, appFrames, hci, hcol, hobjs⟩ := source_frames_ok_shape hs
  obtain ⟨hnd, hcdef⟩ := concatAxis1_ok hc
  have hfm : objs.filterMap id =
      df_required :: ((get_local_env_vars w.env).1 :: ((ci.map Prod.fst).toList ++ appFrames)) := by
    subst hobjs
    cases ci <;>
      simp [List.filterMap_append, List.filterMap_map, Function.comp_def, List.filterMap_some]
  refine ⟨objs, _, hs, hfm, hnd, ?_, ?_⟩
  · rw [hmc, hcdef]
    simp only [DataFrame.fillna]
    rw [hfm]
    rfl
  · rw [hmc, hcdef]
    simp only [DataFrame.fillna]
    rw [hfm]
    rw [List.map_map]
    rfl

theorem merged_row_lookup {rest : List DataFrame} {m : DataFrame} {v : String}
    (hrows : m.rows = (unionKeys (df_required :: rest)).map
      (fun k => (k, (rowFor (df_required :: rest) k).map fun c => some (c.getD "not_set"))))
    (hv : v ∈ unionKeys (df_required :: rest)) :
    m.rows.find? (fun r => r.1 == v) =
      some (v, (rowFor (df_required :: rest) v).map fun c => some (c.getD "not_set")) := by
  rw [hrows]
  exact find?_key_map _ hv

theorem filled_head (rest : List DataFrame) (k : String) :
    ((rowFor (df_required :: rest) k).map fun c => some (c.getD "not_set")).getD 0 none
      = some (if k ∈ REQUIRED_ENV_VARS then "Yes" else "not_set") := by
  rw [rowFor_head]
  by_cases hk : k ∈ REQUIRED_ENV_VARS <;> simp [hk]

/-! ### Counting rows through the final group-sort -/

theorem sum_map_add {α : Type} (l : List α) (f g : α → Nat) :
    (l.map fun x => f x + g x).sum = (l.map f).sum + (l.map g).sum := by
  induction l with
  | nil => simp
  | cons a l ih =>
    simp only [List.map_cons, List.sum_cons, ih]
    omega

theorem sum_map_ite_one {g0 : String} {n : Nat} :
    ∀ (gs : List String), gs.Nodup → g0 ∈ gs →
      (gs.map fun g => if g = g0 then n else 0).sum = n := by
  intro gs
  induction gs with
  | nil => intro _ hmem; cases hmem
  | cons a gs ih =>
    intro hnd hmem
    rcases List.mem_cons.mp hmem with h | h
    · have hnin : g0 ∉ gs := h ▸ (List.nodup_cons.mp hnd).1
      simp only [List.map_cons, if_pos h.symm, List.sum_cons]
      have hz : (gs.map fun g => if g = g0 then n else 0).sum = 0 := by
        apply List.sum_eq_zero
        intro x hx
        rcases List.mem_map.mp hx with ⟨g, hg, rfl⟩
        rw [if_neg]
        intro hga
        exact hnin (hga ▸ hg)
      rw [hz]
      omega
    · have hna : a ∉ gs := (List.nodup_cons.mp hnd).1
      have hne : ¬ (a = g0) := fun hag => hna (hag ▸ h)
      simp only [List.map_cons, if_neg hne, List.sum_cons, Nat.zero_add]
      exact ih (List.nodup_cons.mp hnd).2 h

theorem sum_countP_partition
    (p : (String × List Cell) → Bool) (keyF : (String × List Cell) → Option String) :
    ∀ (rows : List (String × List Cell)) (gs : List String), gs.Nodup →
      (∀ r ∈ rows, ∃ g ∈ gs, keyF r = some g) →
      (gs.map fun g => ((rows.filter fun x => keyF x == some g).countP p)).sum
        = rows.countP p := by
  intro rows
  induction rows with
  | nil =>
    intro gs _ _
    simp
  | cons r rows ih =>
    intro gs hnd hall
    obtain ⟨g0, hg0, hkey⟩ := hall r (List.mem_cons_self r rows)
    have hrec := ih gs hnd (fun x hx => hall x (List.mem_cons_of_mem r hx))
    have hterm : ∀ g, (((r :: rows).filter fun x => keyF x == some g).countP p)
        = ((rows.filter fun x => keyF x == some g).countP p)
          + (if g = g0 then (if p r then 1 else 0) else 0) := by
      intro g
      by_cases hgg : g = g0
      · subst hgg
        rw [List.filter_cons, if_pos (by simp [hkey]), List.countP_cons]
        simp
      · have hne : (keyF r == some g) = false := by
          rw [hkey]
          refine beq_eq_false_iff_ne.mpr ?_
          intro hsome
          exact hgg (Option.some.inj hsome).symm
        rw [List.filter_cons, if_neg (by simp [hne])]
        simp [hgg]
    calc (gs.map fun g => (((r :: rows).filter fun x => keyF x == some g).countP p)).sum
        = (gs.map fun g => ((rows.filter fun x => keyF x == some g).countP p)
            + (if g = g0 then (if p r then 1 else 0) else 0)).sum :=
          congrArg List.sum (List.map_congr_left fun g _ => hterm g)
      _ = (gs.map fun g => ((rows.filter fun x => keyF x == some g).countP p)).sum
            + (gs.map fun g => if g = g0 then (if p r then 1 else 0) else 0).sum :=
          sum_map_add gs _ _
      _ = rows.countP p + (if p r then 1 else 0) := by
          rw [hrec, sum_map_ite_one gs hnd hg0]
      _ = (r :: rows).countP p := (List.countP_cons p r rows).symm

theorem groupSort_countP {m df : DataFrame} (h : finalGroupSort m = .ok df)
    (hall : ∀ r ∈ m.rows, ∃ g, groupKey (m.cols.indexOf "REQUIRED_ENV_VARS") r = some g)
    (v : String) :
    df.rows.countP (fun r => r.1 == v) = m.rows.countP (fun r => r.1 == v) := by
  obtain ⟨hcnt, hdf⟩ := finalGroupSort_ok h
  rw [hdf]
  show ((List.insertionSort (fun a b => strLe a b = true)
      (m.rows.filterMap (groupKey (m.cols.indexOf "REQUIRED_ENV_VARS"))).dedup).flatMap
        fun g => (sortRows (m.rows.filter fun r =>
            groupKey (m.cols.indexOf "REQUIRED_ENV_VARS") r == some g)).map
          fun r => (r.1, r.2.eraseIdx (m.cols.indexOf "REQUIRED_ENV_VARS"))).countP
        (fun r => r.1 == v) = _
  rw [List.countP_flatMap]
  have hperm := List.perm_insertionSort (fun a b => strLe a b = true)
    (m.rows.filterMap (groupKey (m.cols.indexOf "REQUIRED_ENV_VARS"))).dedup
  have hblock : ∀ g, (((sortRows (m.rows.filter fun r =>
        groupKey (m.cols.indexOf "REQUIRED_ENV_VARS") r == some g)).map
          fun r => (r.1, r.2.eraseIdx (m.cols.indexOf "REQUIRED_ENV_VARS"))).countP
            (fun r => r.1 == v))
      = ((m.rows.filter fun r =>
          groupKey (m.cols.indexOf "REQUIRED_ENV_VARS") r == some g).countP
            (fun r => r.1 == v)) := by
    intro g
    rw [List.countP_map]
    exact List.Perm.countP_eq _ (List.perm_insertionSort _ _)
  calc _ = ((List.insertionSort (fun a b => strLe a b = true)
      (m.rows.filterMap (groupKey (m.cols.indexOf "REQUIRED_ENV_VARS"))).dedup).map
        fun g => ((m.rows.filter fun r =>
          groupKey (m.cols.indexOf "REQUIRED_ENV_VARS") r == some g).countP
            (fun r => r.1 == v))).sum :=
        congrArg List.sum (List.map_congr_left fun g _ => hblock g)
    _ = m.rows.countP (fun r => r.1 == v) := by
        apply sum_countP_partition
        · exact hperm.nodup_iff.mpr (List.nodup_dedup _)
        · intro r hr
          obtain ⟨g, hg⟩ := hall r hr
          exact ⟨g, hperm.mem_iff.mpr (List.mem_dedup.mpr
            (List.mem_filterMap.mpr ⟨r, hr, hg⟩)), hg⟩

/-! ### Claim theorems: structure of the merged table -/

/-- C1 (amended): every required name keys exactly one row of the returned
table, and in the merged frame of line 172 that row's required-flag cell is the
constant "Yes"; but the final group-sort is applied with include_groups=False,
which drops the required-flag column, so the returned table itself has no
REQUIRED_ENV_VARS column. -/
theorem C1_required_rows (w : World) (apps : List String) (df m : DataFrame) (v : String)
    (hrun : get_all_vars_into_matrix w apps = .ok df)
    (hm : merged_df_final w apps = .ok m)
    (hv : v ∈ REQUIRED_ENV_VARS) :
    df.rows.countP (fun r => r.1 == v) = 1 ∧
    "REQUIRED_ENV_VARS" ∉ df.cols ∧
    (m.rows.find? (fun r => r.1 == v)).map (fun r => r.2.getD 0 none)
      = some (some "Yes") := by
  obtain ⟨m2, hm2, hgs⟩ := run_ok_anatomy hrun
  rw [hm] at hm2
  cases Except.ok.inj hm2
  obtain ⟨objs, rest, hs, hfm, hnd, hcols, hrows⟩ := merged_frames hm
  have hio : m.cols.indexOf "REQUIRED_ENV_VARS" = 0 := by
    rw [hcols]; exact List.indexOf_cons_self _ _
  have hvu : v ∈ unionKeys (df_required :: rest) := by
    refine mem_unionKeys.mpr ⟨df_required, List.mem_cons_self _ _, ?_⟩
    rwa [keys_df_required]
  have hall : ∀ r ∈ m.rows, ∃ g, groupKey (m.cols.indexOf "REQUIRED_ENV_VARS") r = some g := by
    intro r hr
    rw [hio]
    rw [hrows] at hr
    rcases List.mem_map.mp hr with ⟨k, hk, rfl⟩
    exact ⟨_, filled_head rest k⟩
  refine ⟨?_, ?_, ?_⟩
  · rw [groupSort_countP hgs hall v, hrows, List.countP_map]
    show (unionKeys (df_required :: rest)).countP (fun k => k == v) = 1
    rw [← List.count_eq_countP]
    exact List.count_eq_one_of_mem (unionKeys_nodup _) hvu
  · obtain ⟨hcnt, hdf⟩ := finalGroupSort_ok hgs
    rw [hdf]
    show "REQUIRED_ENV_VARS" ∉ m.cols.eraseIdx (m.cols.indexOf "REQUIRED_ENV_VARS")
    rw [hio, hcols, List.eraseIdx_cons_zero]
    rw [hcols, List.count_cons_self] at hcnt
    have hz : (rest.flatMap DataFrame.cols).count "REQUIRED_ENV_VARS" = 0 := by omega
    exact List.count_eq_zero.mp hz
  · rw [merged_row_lookup hrows hvu]
    simp only [Option.map_some']
    rw [filled_head rest v, if_pos hv]

/-- C1 counterexample: a run with no applications and failing CI succeeds and
returns a table whose only column is "local": the required-flag column is
absent from the returned table, so no row of it carries the "Yes" marker. -/
theorem C1_counterexample :
    (get_all_vars_into_matrix wAllDown []).map DataFrame.cols = .ok ["local"] := by
  decide

/-- C1 witness: the amended statement at the healthy world and the variable
PORT. -/
theorem C1_witness :
    get_all_vars_into_matrix wHealthy ["urban-robot-dev"] = .ok dfHealthy ∧
    merged_df_final wHealthy ["urban-robot-dev"] = .ok mHealthy ∧
    (dfHealthy.rows.countP (fun r => r.1 == "PORT") = 1 ∧
     "REQUIRED_ENV_VARS" ∉ dfHealthy.cols ∧
     (mHealthy.rows.find? (fun r => r.1 == "PORT")).map (fun r => r.2.getD 0 none)
       = some (some "Yes")) :=
  ⟨by decide, by decide,
   C1_required_rows wHealthy ["urban-robot-dev"] dfHealthy mHealthy "PORT" (by decide) (by decide)
     (by decide)⟩

/-! ### Alignment of the source frames -/

theorem getD_replicate {α : Type} {n j : Nat} (x d : α) (hj : j < n) :
    (List.replicate n x).getD j d = x := by
  rw [List.getD_eq_getElem?_getD, List.getElem?_replicate, if_pos hj]
  rfl

theorem df_required_WF : df_required.WF := by
  intro r hr
  rcases List.mem_map.mp hr with ⟨v, _, rfl⟩
  rfl

theorem local_WF (env : String → Option String) : (get_local_env_vars env).1.WF := by
  intro r hr
  simp only [get_local_env_vars, sortRows] at hr
  have hperm := List.perm_insertionSort (fun a b : String × List Cell => strLe a.1 b.1 = true)
    ((REQUIRED_ENV_VARS.map fun v => (v, env v)).map fun p => (p.1, [p.2]))
  have hr2 := hperm.mem_iff.mp hr
  rcases List.mem_map.mp hr2 with ⟨p, _, rfl⟩
  rfl

theorem selectCols_WF {df out : DataFrame} {sel : List String}
    (h : df.selectCols sel = .ok out) : out.WF := by
  unfold DataFrame.selectCols at h
  split at h
  · cases Except.ok.inj h
    intro r hr
    rcases List.mem_map.mp hr with ⟨r0, _, rfl⟩
    simp
  · cases h

theorem ci_to_df_WF {w : World} {d : DataFrame} {raw : List CIRecord}
    (h : get_circleci_env_vars_keys_values_to_df w = .ok (d, raw)) : d.WF := by
  unfold get_circleci_env_vars_keys_values_to_df at h
  cases hc : w.circleci with
  | netError => simp only [hc] at h; cases h
  | response st body =>
    simp only [hc] at h
    by_cases hst : 400 ≤ st
    · rw [if_pos hst] at h; cases h
    · rw [if_neg hst] at h
      cases body with
      | none => cases h
      | some payload =>
        dsimp only at h
        cases hsi : ((pdDataFrameOfRecords payload).fillna "not_set").set_index "name" with
        | error e => simp only [hsi] at h; cases h
        | ok df2 =>
          simp only [hsi] at h
          cases hsel : (df2.prefixCols "CIRCLECI_").selectCols
              ["CIRCLECI_created_at", "CIRCLECI_value"] with
          | error e => simp only [hsel] at h; cases h
          | ok dfc =>
            simp only [hsel, Except.ok.injEq, Prod.mk.injEq] at h
            exact h.1 ▸ selectCols_WF hsel

theorem heroku_ok_some_WF {w : World} {app : String} {lg : List LogMsg} {d : DataFrame}
    {cv : ConfigVars}
    (h : get_heroku_env_vars w app = .ok (lg, some (d, cv))) : d.WF := by
  unfold get_heroku_env_vars at h
  cases hk : w.env "HEROKU_API_KEY" with
  | none => simp only [hk] at h; cases h
  | some tok =>
    simp only [hk] at h
    cases hr : w.heroku app with
    | netError => simp only [hr] at h; cases h
    | response st body =>
      simp only [hr] at h
      cases body with
      | none => cases h
      | some cv2 =>
        dsimp only at h
        by_cases h200 : st = 200
        · rw [if_pos h200] at h
          simp only [Except.ok.injEq, Prod.mk.injEq, Option.some.injEq] at h
          obtain ⟨-, hdf, -⟩ := h
          intro r hr2
          rw [← hdf] at hr2
          rcases List.mem_map.mp hr2 with ⟨p, _, rfl⟩
          rw [← hdf]
          rfl
        · rw [if_neg h200] at h
          by_cases h401 : st = 401
          · rw [if_pos h401] at h
            cases hid : cv2.lookup "id" with
            | none => simp only [hid] at h; cases h
            | some idv =>
              simp only [hid] at h
              by_cases hun : idv = "unauthorized"
              · rw [if_pos hun] at h
                cases hmsg : cv2.lookup "message" with
                | none => simp only [hmsg] at h; cases h
                | some msg => simp [hmsg] at h
              · rw [if_neg hun] at h
                simp at h
          · rw [if_neg h401] at h
            simp at h

theorem collect_WF {w : World} :
    ∀ {apps : List String} {l : List DataFrame}, collect_heroku_frames w apps = .ok l →
      ∀ d ∈ l, d.WF := by
  intro apps
  induction apps with
  | nil =>
    intro l h d hd
    simp only [collect_heroku_frames, Except.ok.injEq] at h
    subst h
    cases hd
  | cons app rest ih =>
    intro l h d hd
    simp only [collect_heroku_frames] at h
    cases hf : get_heroku_env_vars w app with
    | error e => simp only [hf] at h; cases h
    | ok r =>
      obtain ⟨lg, res⟩ := r
      simp only [hf] at h
      cases hcr : collect_heroku_frames w rest with
      | error e => simp only [hcr] at h; cases h
      | ok tail =>
        simp only [hcr] at h
        cases res with
        | none =>
          simp only [Except.ok.injEq] at h
          subst h
          exact ih hcr d hd
        | some pr =>
          obtain ⟨dapp, cv⟩ := pr
          simp only [Except.ok.injEq] at h
          subst h
          rcases List.mem_cons.mp hd with rfl | hd2
          · exact heroku_ok_some_WF hf
          · exact ih hcr d hd2

theorem frames_WF {w : World} {apps : List String} {objs : List (Option DataFrame)}
    (hs : source_frames w apps = .ok objs) :
    ∀ d ∈ objs.filterMap id, d.WF := by
  obtain ⟨ci, appFrames, hci, hcol, hobjs⟩ := source_frames_ok_shape hs
  intro d hd
  subst hobjs
  have hfm : ([some df_required, some (get_local_env_vars w.env).1, ci.map Prod.fst]
      ++ appFrames.map some).filterMap id =
      df_required :: (get_local_env_vars w.env).1 :: ((ci.map Prod.fst).toList ++ appFrames) := by
    cases ci <;>
      simp [List.filterMap_append, List.filterMap_map, Function.comp_def, List.filterMap_some]
  rw [hfm] at hd
  rcases List.mem_cons.mp hd with rfl | hd
  · exact df_required_WF
  rcases List.mem_cons.mp hd with rfl | hd
  · exact local_WF w.env
  rcases List.mem_append.mp hd with hd | hd
  · cases ci with
    | none => cases hd
    | some pr =>
      obtain ⟨dci, raw⟩ := pr
      simp only [Option.map_some', Option.toList_some, List.mem_singleton] at hd
      subst hd
      unfold get_circleci_env_vars_keys at hci
      cases htd : get_circleci_env_vars_keys_values_to_df w with
      | ok r =>
        simp only [htd, Except.ok.injEq, Option.some.injEq] at hci
        subst hci
        exact ci_to_df_WF htd
      | error e =>
        simp only [htd] at hci
        split at hci
        · simp at hci
        · cases hci
  · exact collect_WF hcol d hd

theorem rowFor_length {frames : List DataFrame} (h : ∀ d ∈ frames, d.WF) (k : String) :
    (rowFor frames k).length = (frames.flatMap DataFrame.cols).length := by
  induction frames with
  | nil => rfl
  | cons d fs ih =>
    rw [rowFor_cons, List.flatMap_cons, List.length_append, List.length_append]
    congr 1
    · cases hf : d.rows.find? (fun r => r.1 == k) with
      | some r => exact h d (List.mem_cons_self _ _) r (List.mem_of_find?_eq_some hf)
      | none => exact List.length_replicate _ _
    · exact ih (fun d2 hd2 => h d2 (List.mem_cons_of_mem _ hd2))

theorem rowFor_append (f1 f2 : List DataFrame) (k : String) :
    rowFor (f1 ++ f2) k = rowFor f1 k ++ rowFor f2 k :=
  List.flatMap_append f1 f2 _

/-- C4: the merge is an outer join keyed by variable name: the merged frame's
keys are exactly the union of the source frames' keys, without duplicates;
every such key is exactly one row of the returned table; in the merged frame,
every cell in the column block of a source that lacks the key reads the
literal sentinel "not_set"; and no cell of the returned table is a true
null. -/
theorem C4_outer_join (w : World) (apps : List String) (objs : List (Option DataFrame))
    (m df : DataFrame)
    (hs : source_frames w apps = .ok objs)
    (hm : merged_df_final w apps = .ok m)
    (hrun : get_all_vars_into_matrix w apps = .ok df) :
    (∀ v, v ∈ m.keys ↔ ∃ d, some d ∈ objs ∧ v ∈ d.keys) ∧
    m.keys.Nodup ∧
    (∀ v ∈ m.keys, df.rows.countP (fun r => r.1 == v) = 1) ∧
    (∀ (pre : List DataFrame) (d : DataFrame) (post : List DataFrame) (v : String) (j : Nat),
      objs.filterMap id = pre ++ d :: post → v ∈ m.keys → v ∉ d.keys →
      j < d.cols.length →
      (m.rows.find? (fun row => row.1 == v)).map
          (fun r => r.2.getD ((pre.flatMap DataFrame.cols).length + j) none)
        = some (some "not_set")) ∧
    (∀ r ∈ df.rows, ∀ c ∈ r.2, c ≠ none) := by
  obtain ⟨m2, hm2, hgs⟩ := run_ok_anatomy hrun
  rw [hm] at hm2
  cases Except.ok.inj hm2
  obtain ⟨objs2, rest, hs2, hfm, hnd, hcols, hrows⟩ := merged_frames hm
  rw [hs] at hs2
  cases Except.ok.inj hs2
  have hkeys : m.keys = unionKeys (df_required :: rest) := by
    rw [DataFrame.keys, hrows, List.map_map]
    simp [Function.comp_def]
  have hio : m.cols.indexOf "REQUIRED_ENV_VARS" = 0 := by
    rw [hcols]; exact List.indexOf_cons_self _ _
  have hall : ∀ r ∈ m.rows, ∃ g, groupKey (m.cols.indexOf "REQUIRED_ENV_VARS") r = some g := by
    intro r hr
    rw [hio]
    rw [hrows] at hr
    rcases List.mem_map.mp hr with ⟨k, hk, rfl⟩
    exact ⟨_, filled_head rest k⟩
  refine ⟨?_, ?_, ?_, ?_, ?_⟩
  · intro v
    rw [hkeys, mem_unionKeys, ← hfm]
    constructor
    · rintro ⟨d, hd, hv⟩
      refine ⟨d, ?_, hv⟩
      rcases List.mem_filterMap.mp hd with ⟨a, ha, hae⟩
      simpa [id_eq, ← hae] using ha
    · rintro ⟨d, hd, hv⟩
      exact ⟨d, List.mem_filterMap.mpr ⟨some d, hd, rfl⟩, hv⟩
  · rw [hkeys]; exact unionKeys_nodup _
  · intro v hv
    rw [groupSort_countP hgs hall v, hrows, List.countP_map]
    show (unionKeys (df_required :: rest)).countP (fun k => k == v) = 1
    rw [← List.count_eq_countP]
    exact List.count_eq_one_of_mem (unionKeys_nodup _) (hkeys ▸ hv)
  · intro pre d post v j hsplit hvm hvd hj
    have hvu : v ∈ unionKeys (df_required :: rest) := hkeys ▸ hvm
    rw [merged_row_lookup hrows hvu]
    simp only [Option.map_some']
    have hfr : df_required :: rest = pre ++ d :: post := by rw [← hfm, hsplit]
    rw [hfr, show d :: post = [d] ++ post from rfl, rowFor_append, rowFor_append]
    rw [List.map_append, List.map_append]
    have hWFall := frames_WF hs
    have hWFpre : ∀ d2 ∈ pre, d2.WF := by
      intro d2 hd2
      exact hWFall d2 (by rw [hsplit]; exact List.mem_append_left _ hd2)
    have hlenA : ((rowFor pre v).map fun c => some (c.getD "not_set")).length
        = (pre.flatMap DataFrame.cols).length := by
      rw [List.length_map]
      exact rowFor_length hWFpre v
    rw [List.getD_append_right _ _ _ _ (by rw [hlenA]; exact Nat.le_add_right _ _)]
    rw [hlenA, Nat.add_sub_cancel_left]
    have hseg : (rowFor [d] v).map (fun c => some (c.getD "not_set"))
        = List.replicate d.cols.length (some "not_set") := by
      rw [rowFor_cons, find?_key_eq_none hvd]
      show (List.replicate d.cols.length none ++ rowFor [] v).map _ = _
      simp [rowFor, List.map_replicate]
    rw [hseg]
    rw [List.getD_append _ _ _ j (by rw [List.length_replicate]; exact hj)]
    rw [getD_replicate _ _ hj]
  · obtain ⟨hcnt, hdf⟩ := finalGroupSort_ok hgs
    intro r hr c hc
    rw [hdf] at hr
    rcases List.mem_flatMap.mp hr with ⟨g, hg, hrg⟩
    rcases List.mem_map.mp hrg with ⟨r0, hr0, hre⟩
    subst hre
    have hc0 : c ∈ r0.2 := List.Sublist.mem hc (List.eraseIdx_sublist _ _)
    have hr0m : r0 ∈ m.rows := by
      have hp := List.perm_insertionSort (fun a b : String × List Cell => strLe a.1 b.1 = true)
        (m.rows.filter fun rr => groupKey (m.cols.indexOf "REQUIRED_ENV_VARS") rr == some g)
      have hmemf := hp.mem_iff.mp (by simpa [sortRows] using hr0)
      exact List.mem_of_mem_filter hmemf
    rw [hrows] at hr0m
    rcases List.mem_map.mp hr0m with ⟨k, hk, hke⟩
    cases hke
    rcases List.mem_map.mp hc0 with ⟨c0, _, rfl⟩
    simp

/-! ### Ordering of the returned rows -/

theorem groups_cases {gs : List String}
    (hs : List.Sorted (fun a b => strLe a b = true) gs) (hnd : gs.Nodup)
    (hmem : ∀ g ∈ gs, g = "Yes" ∨ g = "not_set") :
    gs = [] ∨ gs = ["Yes"] ∨ gs = ["not_set"] ∨ gs = ["Yes", "not_set"] := by
  match gs, hs, hnd, hmem with
  | [], _, _, _ => exact Or.inl rfl
  | [g], _, _, hmem =>
    rcases hmem g (List.mem_singleton_self g) with rfl | rfl
    · exact Or.inr (Or.inl rfl)
    · exact Or.inr (Or.inr (Or.inl rfl))
  | g1 :: g2 :: gss, hs, hnd, hmem =>
    have h1 := hmem g1 (by simp)
    have h2 := hmem g2 (by simp)
    have hle : strLe g1 g2 = true := (List.sorted_cons.mp hs).1 g2 (by simp)
    have hne : g1 ≠ g2 := by
      intro he
      exact (List.nodup_cons.mp hnd).1 (he ▸ List.mem_cons_self g2 gss)
    rcases h1 with rfl | rfl <;> rcases h2 with h2 | h2
    · exact absurd h2.symm hne
    · subst h2
      cases gss with
      | nil => exact Or.inr (Or.inr (Or.inr rfl))
      | cons g3 gss2 =>
        exfalso
        have h3 := hmem g3 (by simp)
        rcases h3 with rfl | rfl
        · exact (List.nodup_cons.mp hnd).1 (by simp)
        · exact (List.nodup_cons.mp (List.nodup_cons.mp hnd).2).1 (by simp)
    · subst h2
      exact absurd hle (by decide)
    · exact absurd h2.symm hne

theorem filter_of_append_partition {α : Type} (P : α → Bool) {l a b : List α}
    (h : l = a ++ b) (ha : ∀ x ∈ a, P x = true) (hb : ∀ x ∈ b, P x = false) :
    l.filter P = a ∧ l.filter (fun x => !P x) = b := by
  subst h
  constructor
  · rw [List.filter_append, List.filter_eq_self.mpr ha,
      List.filter_eq_nil_iff.mpr (fun x hx => by simp [hb x hx]), List.append_nil]
  · rw [List.filter_append,
      List.filter_eq_nil_iff.mpr (fun x hx => by simp [ha x hx]),
      List.filter_eq_self.mpr (fun x hx => by simp [hb x hx]), List.nil_append]

/-- C6: in the table returned by the matrix builder, the rows whose key is a
required name come first, then the rows whose key is not required, and each of
the two blocks is sorted by key in Python's string order (the grouping key is
the required-flag column, whose value is "Yes" exactly for required names). -/
theorem C6_row_ordering (w : World) (apps : List String) (df : DataFrame)
    (hrun : get_all_vars_into_matrix w apps = .ok df) :
    df.rows = df.rows.filter (fun r => decide (r.1 ∈ REQUIRED_ENV_VARS))
        ++ df.rows.filter (fun r => !decide (r.1 ∈ REQUIRED_ENV_VARS)) ∧
    List.Sorted (fun r s => strLe r.1 s.1 = true)
      (df.rows.filter (fun r => decide (r.1 ∈ REQUIRED_ENV_VARS))) ∧
    List.Sorted (fun r s => strLe r.1 s.1 = true)
      (df.rows.filter (fun r => !decide (r.1 ∈ REQUIRED_ENV_VARS))) := by
  obtain ⟨m, hm, hgs⟩ := run_ok_anatomy hrun
  obtain ⟨objs, rest, hs, hfm, hnd, hcols, hrows⟩ := merged_frames hm
  have hio : m.cols.indexOf "REQUIRED_ENV_VARS" = 0 := by
    rw [hcols]; exact List.indexOf_cons_self _ _
  obtain ⟨hcnt, hdf⟩ := finalGroupSort_ok hgs
  rw [hio] at hdf
  have hflag : ∀ r ∈ m.rows,
      groupKey 0 r = some (if r.1 ∈ REQUIRED_ENV_VARS then "Yes" else "not_set") := by
    intro r hr
    rw [hrows] at hr
    rcases List.mem_map.mp hr with ⟨k, hk, rfl⟩
    exact filled_head rest k
  have hgssub : ∀ g ∈ List.insertionSort (fun a b => strLe a b = true)
      ((m.rows.filterMap (groupKey 0)).dedup), g = "Yes" ∨ g = "not_set" := by
    intro g hg
    have hmemf : g ∈ m.rows.filterMap (groupKey 0) :=
      List.mem_dedup.mp ((List.perm_insertionSort _ _).mem_iff.mp hg)
    rcases List.mem_filterMap.mp hmemf with ⟨r, hr, hkey⟩
    rw [hflag r hr] at hkey
    have heq := Option.some.inj hkey
    by_cases hreq : r.1 ∈ REQUIRED_ENV_VARS
    · left; rw [if_pos hreq] at heq; exact heq.symm
    · right; rw [if_neg hreq] at heq; exact heq.symm
  have hsorted := List.sorted_insertionSort (fun a b => strLe a b = true)
    ((m.rows.filterMap (groupKey 0)).dedup)
  have hnodup : (List.insertionSort (fun a b => strLe a b = true)
      ((m.rows.filterMap (groupKey 0)).dedup)).Nodup :=
    (List.perm_insertionSort _ _).nodup_iff.mpr (List.nodup_dedup _)
  have hcases := groups_cases hsorted hnodup hgssub
  have hempty : ∀ g, g ∉ List.insertionSort (fun a b => strLe a b = true)
      ((m.rows.filterMap (groupKey 0)).dedup) →
      (m.rows.filter fun r => groupKey 0 r == some g) = [] := by
    intro g hng
    rw [List.filter_eq_nil_iff]
    intro r hr
    simp only [beq_iff_eq]
    intro hk
    exact hng ((List.perm_insertionSort _ _).mem_iff.mpr (List.mem_dedup.mpr
      (List.mem_filterMap.mpr ⟨r, hr, hk⟩)))
  have hrowsdf : df.rows =
      ((sortRows (m.rows.filter fun rr => groupKey 0 rr == some "Yes")).map
        (fun rr => (rr.1, rr.2.eraseIdx 0)))
      ++ ((sortRows (m.rows.filter fun rr => groupKey 0 rr == some "not_set")).map
        (fun rr => (rr.1, rr.2.eraseIdx 0))) := by
    rw [hdf]
    show (List.insertionSort (fun a b => strLe a b = true)
        ((m.rows.filterMap (groupKey 0)).dedup)).flatMap _ = _
    rcases hcases with hc | hc | hc | hc <;> rw [hc]
    · rw [hempty "Yes" (by rw [hc]; simp), hempty "not_set" (by rw [hc]; simp)]
      rfl
    · rw [hempty "not_set" (by rw [hc]; simp)]
      simp [List.flatMap_cons, sortRows, List.insertionSort]
    · rw [hempty "Yes" (by rw [hc]; simp)]
      simp [List.flatMap_cons, sortRows, List.insertionSort]
    · simp [List.flatMap_cons]
  have hmemblock : ∀ g r, r ∈ ((sortRows (m.rows.filter fun rr => groupKey 0 rr == some g)).map
      (fun rr => (rr.1, rr.2.eraseIdx 0))) →
      (if r.1 ∈ REQUIRED_ENV_VARS then "Yes" else "not_set") = g := by
    intro g r hr
    rcases List.mem_map.mp hr with ⟨r0, hr0, rfl⟩
    have hr0f : r0 ∈ m.rows ∧ groupKey 0 r0 = some g := by
      simpa [sortRows, List.mem_filter] using hr0
    have hkey := hr0f.2
    rw [hflag r0 hr0f.1] at hkey
    exact Option.some.inj hkey
  have ha : ∀ r ∈ ((sortRows (m.rows.filter fun rr => groupKey 0 rr == some "Yes")).map
      (fun rr => (rr.1, rr.2.eraseIdx 0))), decide (r.1 ∈ REQUIRED_ENV_VARS) = true := by
    intro r hr
    have hx := hmemblock "Yes" r hr
    by_cases hreq : r.1 ∈ REQUIRED_ENV_VARS
    · simp [hreq]
    · rw [if_neg hreq] at hx
      exact absurd hx (by decide)
  have hb : ∀ r ∈ ((sortRows (m.rows.filter fun rr => groupKey 0 rr == some "not_set")).map
      (fun rr => (rr.1, rr.2.eraseIdx 0))), decide (r.1 ∈ REQUIRED_ENV_VARS) = false := by
    intro r hr
    have hx := hmemblock "not_set" r hr
    by_cases hreq : r.1 ∈ REQUIRED_ENV_VARS
    · rw [if_pos hreq] at hx
      exact absurd hx (by decide)
    · simp [hreq]
  have hsb : ∀ g, List.Sorted (fun r s => strLe r.1 s.1 = true)
      ((sortRows (m.rows.filter fun rr => groupKey 0 rr == some g)).map
        (fun rr => (rr.1, rr.2.eraseIdx 0))) := by
    intro g
    have hsorted0 := List.sorted_insertionSort
      (fun a b : String × List Cell => strLe a.1 b.1 = true)
      (m.rows.filter fun rr => groupKey 0 rr == some g)
    show List.Pairwise _ _
    rw [List.pairwise_map]
    exact hsorted0
  obtain ⟨hfa, hfb⟩ := filter_of_append_partition
    (fun r => decide (r.1 ∈ REQUIRED_ENV_VARS)) hrowsdf ha hb
  refine ⟨?_, ?_, ?_⟩
  · rw [hfa, hfb]; exact hrowsdf
  · rw [hfa]; exact hsb "Yes"
  · rw [hfb]; exact hsb "not_set"

/-- C4 witness: the statement instantiated at the healthy world, with the extra
variable EXTRA_VAR (present only in the application source) and the required
seed frame as the source lacking it. -/
theorem C4_witness :
    mHealthy.keys.Nodup ∧
    dfHealthy.rows.countP (fun r => r.1 == "EXTRA_VAR") = 1 ∧
    (mHealthy.rows.find? (fun row => row.1 == "EXTRA_VAR")).map
        (fun r => r.2.getD ((([] : List DataFrame).flatMap DataFrame.cols).length + 0) none)
      = some (some "not_set") := by
  have h := C4_outer_join wHealthy ["urban-robot-dev"] objsHealthy mHealthy dfHealthy
    (by decide) (by decide) (by decide)
  refine ⟨h.2.1, h.2.2.1 "EXTRA_VAR" (by decide), ?_⟩
  exact h.2.2.2.1 [] df_required ((objsHealthy.filterMap id).tail) "EXTRA_VAR" 0
    (by decide) (by decide) (by decide) (by decide)

/-- C6 witness: the statement instantiated at the healthy world. -/
theorem C6_witness :
    dfHealthy.rows = dfHealthy.rows.filter (fun r => decide (r.1 ∈ REQUIRED_ENV_VARS))
        ++ dfHealthy.rows.filter (fun r => !decide (r.1 ∈ REQUIRED_ENV_VARS)) ∧
    List.Sorted (fun r s => strLe r.1 s.1 = true)
      (dfHealthy.rows.filter (fun r => decide (r.1 ∈ REQUIRED_ENV_VARS))) ∧
    List.Sorted (fun r s => strLe r.1 s.1 = true)
      (dfHealthy.rows.filter (fun r => !decide (r.1 ∈ REQUIRED_ENV_VARS))) :=
  C6_row_ordering wHealthy ["urban-robot-dev"] dfHealthy (by decide)
